import Mathlib

/-!
# Verification of the JakOlah ML-service classification orchestrator

Shallow embedding of the waste-classification pipeline of the JakOlah
repository (`ml-service`), together with proofs and refutations of the
specification's claims about it.

Embedded components (each definition is annotated with the source
function it models):

* the temperature-scaled softmax calibrator
  (`app/models/classifier.py`, `WasteClassifier._softmax` /
  `WasteClassifier._calibrate_scores`);
* the ensemble aggregator (`src/models/classifier.py`,
  `SVMClassifier._predict_ensemble`);
* the prediction dispatch (`src/models/classifier.py`,
  `SVMClassifier.predict` / `_predict_single_model`);
* bounding-box geometry (`app/utils/image_processing.py`, `crop_image`,
  and the pixel conversion in `InferenceService.process_image`);
* the per-detection orchestration loop
  (`app/services/inference.py`, `InferenceService.process_image`);
* the feature-extraction failure path
  (`app/models/feature_extractor.py`, `FeatureExtractor.extract`).

Real-valued floating-point code is modelled over `ℝ` (scores,
probabilities) or `ℚ` (where exact computation is wanted); numpy's
`exp` is `Real.exp`, `np.max` over a vector is `listMax`, and Python
exceptions are `Except` values.
-/

namespace JakOlah

/-! ## List maximum (models `np.max` on a non-empty 1-D array) -/
/-- Maximum of a list, `np.max` on a non-empty array.  The `[]` case is
`0` only to make the function total; every theorem that uses it assumes
a non-empty list, matching numpy (which raises on an empty array). -/
def listMax {α : Type} [LinearOrder α] [Zero α] : List α → α
  | [] => 0
  | [x] => x
  | x :: y :: t => max x (listMax (y :: t))

/-! ## Confidence calibrator

`WasteClassifier._softmax` (1-D branch, `app/models/classifier.py`
lines 158-161):

    exp_x = np.exp(x - np.max(x))
    return exp_x / exp_x.sum()

`WasteClassifier._calibrate_scores` (lines 167-180) divides the scores
by a temperature and then applies `_softmax`; the app instantiates the
temperature at `2.0`. -/
/-- `WasteClassifier._softmax` on a 1-D score vector. -/
noncomputable def softmax (xs : List ℝ) : List ℝ :=
  let m := listMax xs
  let exps := xs.map fun x => Real.exp (x - m)
  exps.map fun e => e / exps.sum

/-- Temperature-scaled calibration: scores are divided by the
temperature and passed through `softmax`.  This is
`WasteClassifier._calibrate_scores` with the temperature exposed as a
parameter (the app hard-codes `temperature = 2.0`, see
`calibrate_scores`). -/
noncomputable def calibrate (scores : List ℝ) (temperature : ℝ) : List ℝ :=
  softmax (scores.map fun s => s / temperature)

/-- `WasteClassifier._calibrate_scores` exactly as written: the
temperature is the constant `2.0`. -/
noncomputable def calibrate_scores (scores : List ℝ) : List ℝ :=
  calibrate scores 2

/-! ## Ensemble aggregator

`SVMClassifier` (`src/models/classifier.py`): `CATEGORIES =
['Organik', 'Anorganik', 'Lainnya']`; `_predict_ensemble` (lines
242-250) averages the per-model probability vectors with `np.mean(...,
axis=0)`, takes `np.argmax`, and reads off the prediction and
confidence. -/
def CATEGORIES : List String := ["Organik", "Anorganik", "Lainnya"]

def numCategories : ℕ := 3

/-- `np.mean(all_probabilities, axis=0)` on a rectangular list of
probability vectors over the three categories: column sums divided by
the number of rows. -/
def avgProbs (ps : List (List ℚ)) : List ℚ :=
  (List.range numCategories).map fun j =>
    (ps.map fun p => p.getD j 0).sum / (ps.length : ℚ)

/-- `np.argmax`: index of the first occurrence of the maximum. -/
def argmaxIdx : List ℚ → ℕ
  | [] => 0
  | [_] => 0
  | x :: y :: t => if x < listMax (y :: t) then argmaxIdx (y :: t) + 1 else 0

/-- Output record of `_predict_ensemble`'s aggregation step
(`prediction`, `confidence`, `probabilities` aligned with
`CATEGORIES`). -/
structure EnsembleOut where
  prediction : String
  confidence : ℚ
  probabilities : List ℚ
  deriving DecidableEq

/-- The aggregation step of `SVMClassifier._predict_ensemble` (lines
242-250): average the probability vectors, then
`predicted_idx = np.argmax(avg)`, `prediction =
CATEGORIES[predicted_idx]`, `confidence = avg[predicted_idx]`. -/
def aggregateEnsemble (ps : List (List ℚ)) : EnsembleOut :=
  let avg := avgProbs ps
  let idx := argmaxIdx avg
  { prediction := CATEGORIES.getD idx ""
    confidence := avg.getD idx 0
    probabilities := avg }

/-! ## Geometry

Pixel conversion (`InferenceService.process_image`,
`app/services/inference.py` lines 118-122) and `crop_image`
(`app/utils/image_processing.py` lines 197-225). -/
/-- A pixel-space box `(x, y, width, height)`. -/
structure PixelBox where
  x : ℤ
  y : ℤ
  width : ℤ
  height : ℤ
  deriving DecidableEq

/-- The pixel conversion in `process_image`:

    x = int(xmin * width); y = int(ymin * height)
    bbox_width = int((xmax - xmin) * width)
    bbox_height = int((ymax - ymin) * height)

For the normalized boxes in `[0,1]` handled here every scaled value is
non-negative, so Python's `int` truncation coincides with the floor. -/
def toPixelBox (ymin xmin ymax xmax : ℚ) (width height : ℕ) : PixelBox :=
  { x := ⌊xmin * width⌋
    y := ⌊ymin * height⌋
    width := ⌊(xmax - xmin) * width⌋
    height := ⌊(ymax - ymin) * height⌋ }

/-- `crop_image`: pad the box, clamp to the image, slice.  numpy's
slice `image[y1:y2, x1:x2]` is the region with offset `(x1, y1)` and
extent `(x2 - x1, y2 - y1)`. -/
def cropRegion (width height : ℕ) (bbox : PixelBox) (padding : ℤ) : PixelBox :=
  let x1 := max 0 (bbox.x - padding)
  let y1 := max 0 (bbox.y - padding)
  let x2 := min (width : ℤ) (bbox.x + bbox.width + padding)
  let y2 := min (height : ℤ) (bbox.y + bbox.height + padding)
  { x := x1, y := y1, width := x2 - x1, height := y2 - y1 }

/-! ## Per-detection orchestration

`InferenceService.process_image` (`app/services/inference.py` lines
59-195).  A `DetectionCase` abstracts one raw YOLO detection together
with the outcome of each black-box step on it: the computed pixel bbox
size, whether `crop_image` came back degenerate, whether the
MobileNetV3 forward pass raised inside `FeatureExtractor.extract`, and
whether the SVM raised inside `WasteClassifier.classify` (both of
those functions catch their own exceptions, see `extract` and
`classifyOutcome`). -/
structure DetectionCase where
  /-- `detection['confidence']` reported by YOLO. -/
  yoloConf : ℚ
  /-- `int((xmax - xmin) * width)`. -/
  bboxWidth : ℤ
  /-- `int((ymax - ymin) * height)`. -/
  bboxHeight : ℤ
  /-- `crop_image` returned `None` or a zero-size crop. -/
  cropEmpty : Bool
  /-- the model forward pass inside `FeatureExtractor.extract` raised. -/
  extractRaises : Bool
  /-- the SVM calls inside `WasteClassifier.classify` raised. -/
  svmRaises : Bool
  /-- category the SVM assigns to this crop's features. -/
  svmCategory : String
  /-- the SVM's confidence for that category. -/
  svmConf : ℚ
  deriving DecidableEq

def featureDim : ℕ := 960

/-- `FeatureExtractor.extract` (`app/models/feature_extractor.py`
lines 81-122): the try-block's feature vector, or — when the body
raised — the except-branch value `np.zeros(self.feature_dim)`.  The
function never raises. -/
def extract (attempt : Except String (List ℚ)) : List ℚ :=
  match attempt with
  | .ok v => v
  | .error _ => List.replicate featureDim 0

/-- `WasteClassifier.classify` (`app/models/classifier.py` lines
99-146) at the per-detection level: if anything inside raised, the
except-branch returns the default `("Lainnya", 0.0, ...)`; otherwise
the SVM's category and confidence.  The function never raises. -/
def classifyOutcome (c : DetectionCase) : String × ℚ :=
  if c.svmRaises then ("Lainnya", 0) else (c.svmCategory, c.svmConf)

/-- One per-detection result record of `process_image` (lines
150-164).  The Python code also rounds confidences to three decimals
and carries the pixel bbox and the per-category map; those fields are
not needed by any claim and are omitted. -/
structure ClassificationResult where
  category : String
  confidence : ℚ
  classificationSource : String
  yoloDetectionConfidence : ℚ
  deriving DecidableEq

/-- Whether `process_image`'s loop keeps this detection: dropped when
the pixel bbox is below the 50-pixel minimum (lines 125-127) or the
crop is degenerate (lines 133-135). -/
def keptDetection (c : DetectionCase) : Bool :=
  !(c.bboxWidth < 50 || c.bboxHeight < 50 || c.cropEmpty)

/-- The result record `process_image` appends for a kept detection
(lines 150-166): the SVM's classification with
`classification_source = 'cnn_svm'` and YOLO's own confidence carried
separately.  Note that `extractRaises` plays no role: `extract`
returns a zero vector instead of raising, so the loop continues and
the SVM classifies the zero vector. -/
def mkResult (c : DetectionCase) : ClassificationResult :=
  { category := (classifyOutcome c).1
    confidence := (classifyOutcome c).2
    classificationSource := "cnn_svm"
    yoloDetectionConfidence := c.yoloConf }

/-- One iteration of the detection loop (lines 112-174).  `none` means
`continue` (the detection is dropped). -/
def processDetection (c : DetectionCase) : Option ClassificationResult :=
  if c.bboxWidth < 50 ∨ c.bboxHeight < 50 then none
  else if c.cropEmpty then none
  else some (mkResult c)

/-- The dictionary `process_image` returns. -/
structure PipelineOutput where
  detections : List ClassificationResult
  error : Option String
  message : Option String
  deriving DecidableEq

/-- `validate_image` (`app/utils/image_processing.py` lines 228-248)
with the call-site minimum `(224, 224)`. -/
def validate_image (w h : ℕ) : Bool :=
  !(w < 224 || h < 224)

/-- One request to `process_image`: the decoded image's size and what
the YOLO detector does on it (`.error` = the YOLO call raised). -/
structure PipelineInput where
  imgWidth : ℕ
  imgHeight : ℕ
  detectorOutcome : Except String (List DetectionCase)

/-- `YOLODetector.detect` (`app/models/detector_yolo.py` lines
61-139): every exception is caught and an empty list returned. -/
def detect (outcome : Except String (List DetectionCase)) : List DetectionCase :=
  match outcome with
  | .ok ds => ds
  | .error _ => []

def max_detections : ℕ := 10

/-- `InferenceService.process_image` (lines 59-195): validate the
image, run the detector, loop over the first `max_detections`
detections appending one result per kept detection. -/
def process_image (inp : PipelineInput) : PipelineOutput :=
  if !(validate_image inp.imgWidth inp.imgHeight) then
    { detections := []
      error := some "Image too small (minimum 224x224 required)"
      message := none }
  else
    let dets := detect inp.detectorOutcome
    if dets.isEmpty then
      { detections := []
        error := none
        message := some "No objects detected in image" }
    else
      { detections := (dets.take max_detections).filterMap processDetection
        error := none
        message := none }

/-! ## SVM prediction dispatch (`src/models/classifier.py`) -/
/-- Result dictionary of `_predict_single_model`. -/
structure SingleOut where
  prediction : String
  confidence : ℚ
  probabilities : List (String × ℚ)
  modelUsed : String
  deriving DecidableEq

/-- One loaded model as held in `SVMClassifier.models`/`model_info`:
its dict key, its required CNN backbone, and — the sklearn call being
a black box — the outcome of `_predict_single_model`'s prediction body
on the current request's features (`.error` = the call raised). -/
structure ModelEntry where
  name : String
  backbone : String
  outcome : Except String SingleOut

/-- `_predict_single_model` (lines 129-183): ValueError for an unknown
model or a missing backbone, otherwise the model's outcome. -/
def predictSingleModel (models : List ModelEntry) (feats : List String)
    (name : String) : Except String SingleOut :=
  match models.find? (fun m => m.name == name) with
  | none => Except.error ("Model " ++ name ++ " not available")
  | some m =>
    if feats.contains m.backbone then m.outcome
    else Except.error
      ("Required features '" ++ m.backbone ++ "' not available in input")

/-- The `individual_results` collected by `_predict_ensemble`'s loop
(lines 224-237): models whose backbone is present are tried, per-model
failures are caught and skipped. -/
def ensembleIndividual (models : List ModelEntry) (feats : List String) :
    List SingleOut :=
  models.filterMap fun m =>
    if feats.contains m.backbone
    then (predictSingleModel models feats m.name).toOption
    else none

/-- `_predict_ensemble` (lines 214-263): ValueError when no model
produced a usable result, otherwise the equal-weight aggregate of the
collected probability vectors. -/
def predictEnsemble (models : List ModelEntry) (feats : List String) :
    Except String EnsembleOut :=
  let indiv := ensembleIndividual models feats
  if indiv.isEmpty then
    Except.error "No models available for ensemble prediction"
  else
    Except.ok (aggregateEnsemble (indiv.map fun r => r.probabilities.map Prod.snd))

/-- `_predict_best_model`'s fixed priority list (lines 196-201). -/
def model_priority : List String :=
  ["resnet50_rbf", "resnet50_poly", "mobilenetv3_rbf", "mobilenetv3_poly"]

/-- `_predict_best_model` (lines 185-212): the first priority-ordered
model that is loaded and whose backbone is present. -/
def predictBestModel (models : List ModelEntry) (feats : List String) :
    Except String SingleOut :=
  match model_priority.find? (fun n =>
      match models.find? (fun m => m.name == n) with
      | some m => feats.contains m.backbone
      | none => false) with
  | some n => predictSingleModel models feats n
  | none =>
      Except.error "No compatible models available for the provided features"

/-- The value `SVMClassifier.predict` returns: an ensemble result or a
single-model result. -/
inductive PredictResult where
  | ensemble (r : EnsembleOut)
  | single (r : SingleOut)
  deriving DecidableEq

/-- `SVMClassifier.predict` (lines 84-127), paired with the list of
prediction strategies the call dispatches, in control-flow order:
exactly one strategy is ever tried, and an error from it is wrapped as
`"SVM prediction failed: ..."` and re-raised — no other strategy is
attempted afterwards. -/
def predict (models : List ModelEntry) (feats : List String)
    (modelName : Option String) (useEnsemble : Bool) :
    Except String PredictResult × List String :=
  if useEnsemble then
    match predictEnsemble models feats with
    | Except.ok r => (Except.ok (PredictResult.ensemble r), ["ensemble"])
    | Except.error e =>
        (Except.error ("SVM prediction failed: " ++ e), ["ensemble"])
  else
    match modelName with
    | some n =>
      match predictSingleModel models feats n with
      | Except.ok r => (Except.ok (PredictResult.single r), ["single"])
      | Except.error e =>
          (Except.error ("SVM prediction failed: " ++ e), ["single"])
    | none =>
      match predictBestModel models feats with
      | Except.ok r => (Except.ok (PredictResult.single r), ["best"])
      | Except.error e =>
          (Except.error ("SVM prediction failed: " ++ e), ["best"])

/-! ## No-probability fallbacks (claim C7) -/
/-- `WasteClassifier.classify` fallback branch (app, lines 127-129):
`probabilities = np.zeros(len(self.CATEGORIES));
probabilities[prediction] = 1.0`. -/
def appOneHot (pred : Fin 3) : List ℚ :=
  (List.replicate 3 (0 : ℚ)).set pred 1

/-- The fallback result assembled by `classify` (lines 131-141):
category name, `confidence = probabilities[prediction]`, and the
per-category map `{CATEGORIES[i]: probabilities[i]}`. -/
def appNoProbResult (pred : Fin 3) : String × ℚ × List (String × ℚ) :=
  (CATEGORIES.getD pred "Lainnya", (appOneHot pred).getD pred 0,
   (List.range 3).map fun i => (CATEGORIES.getD i "", (appOneHot pred).getD i 0))

/-- `SVMClassifier._predict_single_model` fallback branch (src, lines
171-175): `confidence = 0.5`; `prob_dict = {category: 1.0/3 for
category in self.CATEGORIES}` then `prob_dict[prediction] = 1.0` (a
Python dict update: overwrite when the key exists, append a new key
otherwise). -/
def srcNoProbFallback (pred : String) : ℚ × List (String × ℚ) :=
  (1/2,
    (if CATEGORIES.contains pred then CATEGORIES else CATEGORIES ++ [pred]).map
      fun c => (c, if c = pred then 1 else 1/3))

/-! ## Theorems -/

theorem le_listMax {α : Type} [LinearOrder α] [Zero α]
    {l : List α} {x : α} (hx : x ∈ l) : x ≤ listMax l := by
  induction l with
  | nil => cases hx
  | cons a t ih =>
    cases t with
    | nil =>
      rcases List.mem_cons.mp hx with h | h
      · simp [listMax, h]
      · cases h
    | cons b t' =>
      rcases List.mem_cons.mp hx with h | h
      · simp [listMax, h, le_max_left]
      · exact le_trans (ih h) (by simp [listMax, le_max_right])

theorem listMax_mem {α : Type} [LinearOrder α] [Zero α]
    {l : List α} (hl : l ≠ []) : listMax l ∈ l := by
  induction l with
  | nil => exact absurd rfl hl
  | cons a t ih =>
    cases t with
    | nil => simp [listMax]
    | cons b t' =>
      have hmem := ih (by simp)
      by_cases h : listMax (b :: t') ≤ a
      · simp [listMax, max_eq_left h]
      · have : max a (listMax (b :: t')) = listMax (b :: t') :=
          max_eq_right (le_of_not_le h)
        simp only [listMax, this]
        exact List.mem_cons_of_mem a hmem

/-! ### Helper lemmas about sums -/
theorem sum_map_div (l : List ℝ) (c : ℝ) :
    (l.map fun x => x / c).sum = l.sum / c := by
  induction l with
  | nil => simp
  | cons a t ih => simp [List.sum_cons, ih, add_div]

theorem exps_sum_pos {xs : List ℝ} (hxs : xs ≠ []) (m : ℝ) :
    0 < (xs.map fun x => Real.exp (x - m)).sum := by
  refine List.sum_pos _ ?_ ?_
  · intro e he
    rcases List.mem_map.mp he with ⟨x, _, rfl⟩
    exact Real.exp_pos _
  · simpa using hxs

theorem softmax_sum {xs : List ℝ} (hxs : xs ≠ []) :
    (softmax xs).sum = 1 := by
  unfold softmax
  have hpos := exps_sum_pos hxs (listMax xs)
  rw [sum_map_div, div_self (ne_of_gt hpos)]

theorem softmax_nonneg {xs : List ℝ} {p : ℝ}
    (hp : p ∈ softmax xs) : 0 ≤ p := by
  unfold softmax at hp
  rcases List.mem_map.mp hp with ⟨e, he, rfl⟩
  rcases List.mem_map.mp he with ⟨x, _, rfl⟩
  by_cases hxs : xs = []
  · subst hxs; cases he
  · exact le_of_lt (div_pos (Real.exp_pos _) (exps_sum_pos hxs _))

/-! ### The maximum entry of a softmax -/
theorem listMax_map_div {l : List ℝ} {c : ℝ} (hc : 0 < c) (hl : l ≠ []) :
    listMax (l.map fun x => x / c) = listMax l / c := by
  induction l with
  | nil => exact absurd rfl hl
  | cons a t ih =>
    cases t with
    | nil => simp [listMax]
    | cons b t' =>
      have ih' := ih (by simp)
      simp only [List.map_cons, listMax] at ih' ⊢
      rw [ih', max_div_div_right (le_of_lt hc)]

theorem softmax_ne_nil {xs : List ℝ} (hxs : xs ≠ []) : softmax xs ≠ [] := by
  unfold softmax
  simpa using hxs

/-- The largest entry of `softmax xs` is `1 / Σᵢ exp (xsᵢ - max xs)`:
it is attained at any index realising the maximum of `xs`. -/
theorem softmax_listMax {xs : List ℝ} (hxs : xs ≠ []) :
    listMax (softmax xs) =
      1 / (xs.map fun x => Real.exp (x - listMax xs)).sum := by
  set m := listMax xs with hm
  set S := (xs.map fun x => Real.exp (x - m)).sum with hS
  have hSpos : 0 < S := exps_sum_pos hxs m
  have hub : ∀ p ∈ softmax xs, p ≤ 1 / S := by
    intro p hp
    unfold softmax at hp
    rcases List.mem_map.mp hp with ⟨e, he, rfl⟩
    rcases List.mem_map.mp he with ⟨x, hx, rfl⟩
    have hx_le : x - m ≤ 0 := sub_nonpos.mpr (le_listMax hx)
    have hexp : Real.exp (x - m) ≤ 1 := Real.exp_le_one_iff.mpr hx_le
    exact (div_le_div_iff_of_pos_right hSpos).mpr hexp
  have hmem : (1 : ℝ) / S ∈ softmax xs := by
    unfold softmax
    have hmmem : m ∈ xs := listMax_mem hxs
    refine List.mem_map.mpr ⟨Real.exp (m - m), ?_, ?_⟩
    · exact List.mem_map.mpr ⟨m, hmmem, rfl⟩
    · simp
  exact le_antisymm
    (hub _ (listMax_mem (softmax_ne_nil hxs)))
    (le_listMax hmem)

/-- Pointwise `≤` with one strict member gives a strict inequality of
sums over the mapped list. -/
theorem sum_map_lt_sum_map {l : List ℝ} (f g : ℝ → ℝ)
    (hle : ∀ x ∈ l, f x ≤ g x) {x₀ : ℝ} (hx₀ : x₀ ∈ l)
    (hlt : f x₀ < g x₀) :
    (l.map f).sum < (l.map g).sum := by
  induction l with
  | nil => cases hx₀
  | cons a t ih =>
    simp only [List.map_cons, List.sum_cons]
    rcases List.mem_cons.mp hx₀ with h | h
    · subst h
      have : (t.map f).sum ≤ (t.map g).sum :=
        List.sum_le_sum fun x hx => hle x (List.mem_cons_of_mem _ hx)
      exact add_lt_add_of_lt_of_le hlt this
    · have hft : (t.map f).sum < (t.map g).sum :=
        ih (fun x hx => hle x (List.mem_cons_of_mem _ hx)) h
      exact add_lt_add_of_le_of_lt (hle a (List.mem_cons_self a t)) hft

/-- The maximum entry of the calibrated distribution at temperature
`t > 0` equals `1 / Σᵢ exp ((xᵢ - max xs) / t)`. -/
theorem calibrate_listMax {xs : List ℝ} {t : ℝ} (hxs : xs ≠ []) (ht : 0 < t) :
    listMax (calibrate xs t) =
      1 / (xs.map fun x => Real.exp ((x - listMax xs) / t)).sum := by
  unfold calibrate
  have hne : (xs.map fun s => s / t) ≠ [] := by simpa using hxs
  rw [softmax_listMax hne, listMax_map_div ht hxs]
  congr 1
  rw [List.map_map]
  have hfun : ((fun x => Real.exp (x - listMax xs / t)) ∘ fun s => s / t)
      = fun x => Real.exp ((x - listMax xs) / t) := by
    funext s
    simp only [Function.comp]
    rw [div_sub_div_same]
  rw [hfun]

theorem sum_map_exp_pos {xs : List ℝ} (hxs : xs ≠ []) (f : ℝ → ℝ) :
    0 < (xs.map fun x => Real.exp (f x)).sum := by
  refine List.sum_pos _ ?_ ?_
  · intro e he
    rcases List.mem_map.mp he with ⟨x, _, rfl⟩
    exact Real.exp_pos _
  · simpa using hxs

/-- C2.  For every non-empty score vector and every temperature `> 0`,
the calibrated output (`_calibrate_scores` with the temperature exposed,
i.e. temperature-scaled softmax) has all entries `≥ 0` and sums to `1`
— over the reals the sum is exactly `1`, which subsumes the
floating-point-tolerance phrasing of the spec. -/
theorem calibrate_valid_distribution (scores : List ℝ) (t : ℝ)
    (hs : scores ≠ []) (ht : 0 < t) :
    (∀ p ∈ calibrate scores t, 0 ≤ p) ∧ (calibrate scores t).sum = 1 := by
  have hne : (scores.map fun s => s / t) ≠ [] := by simpa using hs
  constructor
  · intro p hp
    exact softmax_nonneg hp
  · exact softmax_sum hne

/-- Witness for `calibrate_valid_distribution` at the concrete scores
`[1, 2, 3]` and temperature `2` (the app's hard-coded value). -/
theorem calibrate_valid_distribution_witness :
    ([1, 2, 3] : List ℝ) ≠ [] ∧ (0 : ℝ) < 2 ∧
      ((∀ p ∈ calibrate [1, 2, 3] 2, 0 ≤ p) ∧
        (calibrate ([1, 2, 3] : List ℝ) 2).sum = 1) :=
  ⟨by simp, by norm_num,
    calibrate_valid_distribution [1, 2, 3] 2 (by simp) (by norm_num)⟩

/-- C10.  For every non-uniform score vector and temperatures
`0 < t₁ < t₂`, the maximum entry of the calibrated distribution at
`t₂` is strictly smaller than at `t₁`. -/
theorem calibrate_temperature_monotone (scores : List ℝ) (t₁ t₂ : ℝ)
    (hnu : ∃ a ∈ scores, ∃ b ∈ scores, a ≠ b)
    (ht₁ : 0 < t₁) (h12 : t₁ < t₂) :
    listMax (calibrate scores t₂) < listMax (calibrate scores t₁) := by
  obtain ⟨a, ha, b, hb, hab⟩ := hnu
  have hs : scores ≠ [] := by
    intro h; subst h; cases ha
  have ht₂ : 0 < t₂ := lt_trans ht₁ h12
  set M := listMax scores with hM
  -- a strictly sub-maximal score exists
  have hsub : ∃ s₀ ∈ scores, s₀ < M := by
    rcases lt_or_gt_of_ne hab with h | h
    · exact ⟨a, ha, lt_of_lt_of_le h (le_listMax hb)⟩
    · exact ⟨b, hb, lt_of_lt_of_le h (le_listMax ha)⟩
  obtain ⟨s₀, hs₀, hs₀lt⟩ := hsub
  rw [calibrate_listMax hs ht₁, calibrate_listMax hs ht₂, ← hM]
  have hS₁pos : 0 < (scores.map fun x => Real.exp ((x - M) / t₁)).sum :=
    sum_map_exp_pos hs _
  refine one_div_lt_one_div_of_lt hS₁pos ?_
  refine sum_map_lt_sum_map _ _ ?_ hs₀ ?_
  · intro x hx
    refine Real.exp_le_exp.mpr ?_
    rw [div_le_div_iff ht₁ ht₂]
    exact mul_le_mul_of_nonpos_left (le_of_lt h12)
      (sub_nonpos.mpr (le_listMax hx))
  · refine Real.exp_lt_exp.mpr ?_
    rw [div_lt_div_iff ht₁ ht₂]
    exact mul_lt_mul_of_neg_left h12 (sub_neg.mpr hs₀lt)

/-- Witness for `calibrate_temperature_monotone` at scores `[0, 1]`
and temperatures `1 < 2`. -/
theorem calibrate_temperature_monotone_witness :
    (∃ a ∈ ([0, 1] : List ℝ), ∃ b ∈ ([0, 1] : List ℝ), a ≠ b) ∧
      (0 : ℝ) < 1 ∧ (1 : ℝ) < 2 ∧
      listMax (calibrate [0, 1] 2) < listMax (calibrate [0, 1] 1) :=
  ⟨⟨0, by simp, 1, by simp, by norm_num⟩, by norm_num, by norm_num,
    calibrate_temperature_monotone [0, 1] 1 2
      ⟨0, by simp, 1, by simp, by norm_num⟩ (by norm_num) (by norm_num)⟩

/-! ### `argmax` properties -/
theorem argmax_getD_eq_listMax {l : List ℚ} (hl : l ≠ []) :
    l.getD (argmaxIdx l) 0 = listMax l := by
  induction l with
  | nil => exact absurd rfl hl
  | cons a t ih =>
    cases t with
    | nil => simp [argmaxIdx, listMax]
    | cons b t' =>
      have ih' := ih (by simp)
      by_cases h : a < listMax (b :: t')
      · simp only [argmaxIdx, if_pos h, listMax]
        rw [max_eq_right (le_of_lt h)]
        simpa using ih'
      · simp only [argmaxIdx, if_neg h, listMax]
        rw [max_eq_left (le_of_not_lt h)]
        rfl

theorem argmax_lowest_index {l : List ℚ} {j : ℕ}
    (hj : j < argmaxIdx l) : l.getD j 0 < listMax l := by
  induction l generalizing j with
  | nil => simp [argmaxIdx] at hj
  | cons a t ih =>
    cases t with
    | nil => simp [argmaxIdx] at hj
    | cons b t' =>
      by_cases h : a < listMax (b :: t')
      · simp only [argmaxIdx, if_pos h] at hj
        cases j with
        | zero =>
          simpa [listMax, max_eq_right (le_of_lt h)] using h
        | succ j' =>
          have hj' : j' < argmaxIdx (b :: t') := Nat.lt_of_succ_lt_succ hj
          have := ih hj'
          simpa [listMax, max_eq_right (le_of_lt h)] using this
      · simp [argmaxIdx, if_neg h] at hj

theorem getD_range_map (f : ℕ → ℚ) {n j : ℕ} (h : j < n) :
    ((List.range n).map f).getD j 0 = f j := by
  rw [List.getD_eq_getElem _ _ (by simpa using h)]
  simp

/-- C4.  For any non-empty rectangular batch of per-model probability
vectors over the three fixed labels: the aggregate probability vector
is the element-wise arithmetic mean (column sum over number of models),
the confidence is the maximum entry of that mean, every index below the
chosen one is strictly sub-maximal (lowest-index tie-break), the
prediction is the label at the chosen index, and on the concrete pair
`[0.5, 0.5, 0]`, `[0.5, 0.5, 0]` the aggregate picks `Organik` with
confidence `0.5`. -/
theorem ensemble_mean_argmax (ps : List (List ℚ)) (hps : ps ≠ [])
    (hlen : ∀ r ∈ ps, r.length = numCategories) :
    (aggregateEnsemble ps).probabilities = avgProbs ps ∧
    (∀ j < numCategories, (avgProbs ps).getD j 0 =
        (ps.map fun p => p.getD j 0).sum / (ps.length : ℚ)) ∧
    (aggregateEnsemble ps).confidence = listMax (avgProbs ps) ∧
    (∀ j < argmaxIdx (avgProbs ps),
        (avgProbs ps).getD j 0 < (aggregateEnsemble ps).confidence) ∧
    (aggregateEnsemble ps).prediction
        = CATEGORIES.getD (argmaxIdx (avgProbs ps)) "" ∧
    aggregateEnsemble [[1/2, 1/2, 0], [1/2, 1/2, 0]]
        = ⟨"Organik", 1/2, [1/2, 1/2, 0]⟩ := by
  have havg_ne : avgProbs ps ≠ [] := by
    simp [avgProbs, numCategories, List.range_succ]
  have hmax : (aggregateEnsemble ps).confidence = listMax (avgProbs ps) := by
    simp only [aggregateEnsemble]
    exact argmax_getD_eq_listMax havg_ne
  have hconc : aggregateEnsemble [[1/2, 1/2, 0], [1/2, 1/2, 0]]
      = ⟨"Organik", 1/2, [1/2, 1/2, 0]⟩ := by
    have havg : avgProbs [[1/2, 1/2, 0], [1/2, 1/2, 0]] = [1/2, 1/2, 0] := by
      simp [avgProbs, numCategories, List.range_succ]
    have h2 : ¬ ((1:ℚ)/2 < listMax ([1/2, 0] : List ℚ)) := by
      simp [listMax]
    have hidx : argmaxIdx ([1/2, 1/2, 0] : List ℚ) = 0 := by
      simp only [argmaxIdx, if_neg h2]
    simp only [aggregateEnsemble]
    rw [havg, hidx]
    rfl
  refine ⟨rfl, ?_, hmax, ?_, rfl, hconc⟩
  · intro j hj
    exact getD_range_map _ hj
  · intro j hj
    rw [hmax]
    exact argmax_lowest_index hj

/-- Witness for `ensemble_mean_argmax` at the spec's concrete
tie-break scenario. -/
theorem ensemble_mean_argmax_witness :
    ([[1/2, 1/2, 0], [1/2, 1/2, 0]] : List (List ℚ)) ≠ [] ∧
    (∀ r ∈ ([[1/2, 1/2, 0], [1/2, 1/2, 0]] : List (List ℚ)),
        r.length = numCategories) ∧
    (aggregateEnsemble [[1/2, 1/2, 0], [1/2, 1/2, 0]]).prediction
        = CATEGORIES.getD
            (argmaxIdx (avgProbs [[1/2, 1/2, 0], [1/2, 1/2, 0]])) "" :=
  ⟨by simp, by simp [numCategories],
    (ensemble_mean_argmax [[1/2, 1/2, 0], [1/2, 1/2, 0]]
      (by simp) (by simp [numCategories])).2.2.2.2.1⟩

theorem floor_scale_bounds {a b : ℚ} (W : ℕ) (h0 : 0 ≤ a) (hab : a ≤ b)
    (h1 : b ≤ 1) :
    0 ≤ ⌊a * W⌋ ∧ ⌊a * W⌋ ≤ (W : ℤ) ∧ 0 ≤ ⌊(b - a) * W⌋ := by
  have hW : (0 : ℚ) ≤ (W : ℚ) := Nat.cast_nonneg W
  refine ⟨Int.floor_nonneg.mpr (mul_nonneg h0 hW), ?_,
    Int.floor_nonneg.mpr (mul_nonneg (sub_nonneg.mpr hab) hW)⟩
  have haW : a * W ≤ (W : ℚ) :=
    mul_le_of_le_one_left hW (le_trans hab h1)
  calc ⌊a * W⌋ ≤ ⌊(W : ℚ)⌋ := Int.floor_le_floor haW
    _ = (W : ℤ) := Int.floor_natCast W

/-- C6.  For every normalized box with `0 ≤ ymin ≤ ymax ≤ 1`,
`0 ≤ xmin ≤ xmax ≤ 1`, every image size and every padding `≥ 0`, the
crop region produced by the pixel conversion followed by `crop_image`
lies inside the image: `0 ≤ x`, `0 ≤ y`, `x + width ≤ image_width`,
`y + height ≤ image_height`, and its width/height are non-negative. -/
theorem crop_region_in_bounds (ymin xmin ymax xmax : ℚ)
    (width height : ℕ) (padding : ℤ)
    (hy0 : 0 ≤ ymin) (hy : ymin ≤ ymax) (hy1 : ymax ≤ 1)
    (hx0 : 0 ≤ xmin) (hx : xmin ≤ xmax) (hx1 : xmax ≤ 1)
    (hp : 0 ≤ padding) :
    0 ≤ (cropRegion width height
          (toPixelBox ymin xmin ymax xmax width height) padding).x ∧
    0 ≤ (cropRegion width height
          (toPixelBox ymin xmin ymax xmax width height) padding).y ∧
    (cropRegion width height
          (toPixelBox ymin xmin ymax xmax width height) padding).x +
      (cropRegion width height
          (toPixelBox ymin xmin ymax xmax width height) padding).width
        ≤ (width : ℤ) ∧
    (cropRegion width height
          (toPixelBox ymin xmin ymax xmax width height) padding).y +
      (cropRegion width height
          (toPixelBox ymin xmin ymax xmax width height) padding).height
        ≤ (height : ℤ) ∧
    0 ≤ (cropRegion width height
          (toPixelBox ymin xmin ymax xmax width height) padding).width ∧
    0 ≤ (cropRegion width height
          (toPixelBox ymin xmin ymax xmax width height) padding).height := by
  obtain ⟨hX0, hXW, hWb0⟩ := floor_scale_bounds width hx0 hx hx1
  obtain ⟨hY0, hYH, hHb0⟩ := floor_scale_bounds height hy0 hy hy1
  simp only [cropRegion, toPixelBox]
  omega

/-- Witness for `crop_region_in_bounds` at the box
`(1/4, 1/4, 3/4, 3/4)` on a 100×100 image with padding 15. -/
theorem crop_region_in_bounds_witness :
    (0 : ℚ) ≤ 1/4 ∧ (1/4 : ℚ) ≤ 3/4 ∧ (3/4 : ℚ) ≤ 1 ∧ (0 : ℤ) ≤ 15 ∧
    (0 ≤ (cropRegion 100 100
          (toPixelBox (1/4) (1/4) (3/4) (3/4) 100 100) 15).x ∧
      0 ≤ (cropRegion 100 100
          (toPixelBox (1/4) (1/4) (3/4) (3/4) 100 100) 15).y ∧
      (cropRegion 100 100
          (toPixelBox (1/4) (1/4) (3/4) (3/4) 100 100) 15).x +
        (cropRegion 100 100
          (toPixelBox (1/4) (1/4) (3/4) (3/4) 100 100) 15).width
          ≤ (100 : ℤ) ∧
      (cropRegion 100 100
          (toPixelBox (1/4) (1/4) (3/4) (3/4) 100 100) 15).y +
        (cropRegion 100 100
          (toPixelBox (1/4) (1/4) (3/4) (3/4) 100 100) 15).height
          ≤ (100 : ℤ) ∧
      0 ≤ (cropRegion 100 100
          (toPixelBox (1/4) (1/4) (3/4) (3/4) 100 100) 15).width ∧
      0 ≤ (cropRegion 100 100
          (toPixelBox (1/4) (1/4) (3/4) (3/4) 100 100) 15).height) :=
  ⟨by norm_num, by norm_num, by norm_num, by norm_num,
    crop_region_in_bounds (1/4) (1/4) (3/4) (3/4) 100 100 15
      (by norm_num) (by norm_num) (by norm_num)
      (by norm_num) (by norm_num) (by norm_num) (by norm_num)⟩

/-! ### Loop structure lemmas -/
theorem processDetection_eq_ite (c : DetectionCase) :
    processDetection c = if keptDetection c then some (mkResult c) else none := by
  simp only [processDetection, keptDetection]
  by_cases h1 : c.bboxWidth < 50 <;>
    by_cases h2 : c.bboxHeight < 50 <;>
    by_cases h3 : c.cropEmpty = true <;>
    simp [h1, h2, h3]

theorem filterMap_ite {α β : Type} (p : α → Bool) (f : α → β) (l : List α) :
    (l.filterMap fun c => if p c then some (f c) else none)
      = (l.filter p).map f := by
  induction l with
  | nil => rfl
  | cons a t ih =>
    by_cases h : p a <;> simp [List.filterMap_cons, List.filter_cons, h, ih]

theorem filterMap_processDetection (l : List DetectionCase) :
    l.filterMap processDetection = (l.filter keptDetection).map mkResult := by
  rw [← filterMap_ite keptDetection mkResult l]
  exact List.filterMap_congr fun c _ => processDetection_eq_ite c

/-- C3 counterexample.  A detection whose crop and bbox are fine but
whose SVM classification raises is NOT dropped: `classify` catches the
exception and returns the default `("Lainnya", 0.0)`, which the loop
appends; likewise a detection whose feature extraction raises is still
classified (on the silently returned zero vector) and appended.  Both
produce a `ClassificationResult`, contradicting the claim that every
recoverable failure yields none. -/
theorem recoverable_failure_not_always_dropped :
    processDetection ⟨1, 60, 60, false, false, true, "Organik", 1⟩
        = some ⟨"Lainnya", 0, "cnn_svm", 1⟩ ∧
    processDetection ⟨1, 60, 60, false, true, false, "Anorganik", 1⟩
        = some ⟨"Anorganik", 1, "cnn_svm", 1⟩ ∧
    (process_image ⟨640, 480,
        Except.ok [⟨1, 60, 60, false, false, true, "Organik", 1⟩]⟩).detections
      = [⟨"Lainnya", 0, "cnn_svm", 1⟩] := by
  refine ⟨?_, ?_, ?_⟩ <;>
    simp [process_image, detect, validate_image, max_detections,
      processDetection, mkResult, classifyOutcome]

/-- C3 (amended).  Per-detection drops happen exactly for
below-minimum-size bboxes and degenerate crops; the surviving
detections' results appear in original relative order (the result list
is the image of the kept detections under `mkResult`) and the request
succeeds.  Failures inside feature extraction or classification do not
drop the detection: they are caught inside `extract`/`classify`, which
return a zero vector resp. a default result.  The spec's concrete
scenario (three detections, the second with a degenerate crop) yields
exactly the first and third results, in order. -/
theorem per_detection_abandonment (cs : List DetectionCase) (w h : ℕ)
    (hw : 224 ≤ w) (hh : 224 ≤ h) (hcs : cs ≠ []) :
    (process_image ⟨w, h, Except.ok cs⟩).error = none ∧
    (process_image ⟨w, h, Except.ok cs⟩).detections
      = ((cs.take max_detections).filter keptDetection).map mkResult ∧
    (∀ c ∈ cs, keptDetection c = false ↔
        (c.bboxWidth < 50 ∨ c.bboxHeight < 50 ∨ c.cropEmpty = true)) ∧
    (process_image ⟨640, 480, Except.ok
        [⟨1, 60, 60, false, false, false, "Organik", 1⟩,
         ⟨1, 60, 60, true, false, false, "Anorganik", 1⟩,
         ⟨1, 60, 60, false, false, false, "Lainnya", 1⟩]⟩).detections
      = [⟨"Organik", 1, "cnn_svm", 1⟩, ⟨"Lainnya", 1, "cnn_svm", 1⟩] := by
  have hv : validate_image w h = true := by
    simp only [validate_image, Bool.not_eq_true']
    simp only [Bool.or_eq_false_iff, decide_eq_false_iff_not]
    omega
  have hne : cs.isEmpty = false := by
    simp [List.isEmpty_iff, hcs]
  refine ⟨?_, ?_, ?_, ?_⟩
  · simp [process_image, detect, hv, hne]
  · simp only [process_image, detect, hv, hne, Bool.not_true,
      Bool.false_eq_true, if_false]
    exact filterMap_processDetection _
  · intro c _
    simp only [keptDetection, Bool.not_eq_false', Bool.or_eq_true_iff,
      decide_eq_true_eq]
    tauto
  · simp [process_image, detect, validate_image, max_detections,
      processDetection, mkResult, classifyOutcome, keptDetection]

/-- Witness for `per_detection_abandonment` on a 640×480 image with a
single kept detection. -/
theorem per_detection_abandonment_witness :
    224 ≤ 640 ∧ 224 ≤ 480 ∧
    ([⟨1, 60, 60, false, false, false, "Organik", 1⟩]
        : List DetectionCase) ≠ [] ∧
    (process_image ⟨640, 480, Except.ok
        [⟨1, 60, 60, false, false, false, "Organik", 1⟩]⟩).error = none :=
  ⟨by norm_num, by norm_num, by simp,
    (per_detection_abandonment
      [⟨1, 60, 60, false, false, false, "Organik", 1⟩] 640 480
      (by norm_num) (by norm_num) (by simp)).1⟩

/-- C1 counterexample.  At the spec's own hybrid-fallback scenario —
classifier confidence `0.55`, detector confidence `0.9` — the pipeline
returns `classification_source = "cnn_svm"` with the classifier's
label and confidence, not `"detector_fallback"` with the detector's:
no hybrid decision-fusion rule exists in `process_image` (lines
144-166 always tag results `'cnn_svm'`; no `T_low`/`T_override`
thresholds appear anywhere in the code). -/
theorem hybrid_fallback_counterexample :
    process_image ⟨640, 480, Except.ok
        [⟨9/10, 60, 60, false, false, false, "Organik", 11/20⟩]⟩
      = { detections := [⟨"Organik", 11/20, "cnn_svm", 9/10⟩]
          error := none, message := none } ∧
    "cnn_svm" ≠ "detector_fallback" := by
  constructor
  · simp [process_image, detect, validate_image, max_detections,
      processDetection, mkResult, classifyOutcome]
  · decide

/-- C1 (amended).  There is no hybrid mode: every result produced by
`process_image` carries `classification_source = "cnn_svm"`, with the
classifier's label and confidence; the detector's confidence is
reported separately (`yolo_detection_confidence`) and never overrides
the classifier, whatever the two confidences are. -/
theorem classification_source_cnn_svm (inp : PipelineInput)
    (r : ClassificationResult)
    (hr : r ∈ (process_image inp).detections) :
    r.classificationSource = "cnn_svm" := by
  by_cases hv : validate_image inp.imgWidth inp.imgHeight = true
  · by_cases hd : (detect inp.detectorOutcome).isEmpty = true
    · simp [process_image, hv, hd] at hr
    · simp only [process_image, hv, Bool.not_true, Bool.false_eq_true,
        if_false, Bool.not_eq_true] at hr
      rw [if_neg (by simp [hd])] at hr
      simp only [] at hr
      rcases List.mem_filterMap.mp hr with ⟨c, _, hc⟩
      rw [processDetection_eq_ite] at hc
      by_cases hk : keptDetection c = true
      · rw [if_pos hk] at hc
        cases hc
        rfl
      · rw [if_neg hk] at hc
        cases hc
  · simp [process_image, hv] at hr

/-- Witness for `classification_source_cnn_svm` at the hybrid-scenario
confidences (classifier `0.55`, detector `0.9`). -/
theorem classification_source_cnn_svm_witness :
    (⟨"Organik", 11/20, "cnn_svm", 9/10⟩ : ClassificationResult) ∈
      (process_image ⟨640, 480, Except.ok
        [⟨9/10, 60, 60, false, false, false, "Organik", 11/20⟩]⟩).detections ∧
    (⟨"Organik", 11/20, "cnn_svm", 9/10⟩
        : ClassificationResult).classificationSource = "cnn_svm" := by
  have hmem : (⟨"Organik", 11/20, "cnn_svm", 9/10⟩ : ClassificationResult) ∈
      (process_image ⟨640, 480, Except.ok
        [⟨9/10, 60, 60, false, false, false, "Organik", 11/20⟩]⟩).detections := by
    simp [process_image, detect, validate_image, max_detections,
      processDetection, mkResult, classifyOutcome]
  exact ⟨hmem, classification_source_cnn_svm _ _ hmem⟩

/-- C9 counterexample.  When the YOLO call raises, `detect` swallows
the exception and returns `[]` (detector_yolo.py lines 137-139), so
`process_image` reports success — `error = None` — with the fabricated
message `'No objects detected in image'` instead of failing the
request. -/
theorem detector_throw_counterexample :
    process_image ⟨640, 480, Except.error "YOLO detection failed"⟩
      = { detections := []
          error := none
          message := some "No objects detected in image" } ∧
    (process_image ⟨640, 480,
        Except.error "YOLO detection failed"⟩).error = none := by
  constructor <;> simp [process_image, detect, validate_image]

/-- C9 (amended).  Images failing the upstream precondition check do
fail the whole request with a reported error and no fabricated
detections; but a detector that throws does NOT fail the request: the
exception is caught inside `detect`, which returns an empty list, and
the request succeeds with `error = None` and the message
`'No objects detected in image'`. -/
theorem pipeline_failure_behaviour (w h : ℕ) (e : String)
    (dout : Except String (List DetectionCase)) :
    ((w < 224 ∨ h < 224) →
      process_image ⟨w, h, dout⟩
        = { detections := []
            error := some "Image too small (minimum 224x224 required)"
            message := none }) ∧
    (224 ≤ w → 224 ≤ h →
      process_image ⟨w, h, Except.error e⟩
        = { detections := []
            error := none
            message := some "No objects detected in image" }) := by
  constructor
  · intro hwh
    have hv : validate_image w h = false := by
      simp [validate_image]
      omega
    simp [process_image, hv]
  · intro hw hh
    have hv : validate_image w h = true := by
      simp [validate_image]
      omega
    simp [process_image, detect, hv]

/-- Witness for `pipeline_failure_behaviour`: a 100×100 image fails
with the size error; a 640×480 image whose detector throws succeeds
with an empty detection list. -/
theorem pipeline_failure_behaviour_witness :
    ((100 < 224 ∨ 100 < 224) ∧
      process_image ⟨100, 100, Except.error "boom"⟩
        = { detections := []
            error := some "Image too small (minimum 224x224 required)"
            message := none }) ∧
    (224 ≤ 640 ∧ 224 ≤ 480 ∧
      process_image ⟨640, 480, Except.error "boom"⟩
        = { detections := []
            error := none
            message := some "No objects detected in image" }) :=
  ⟨⟨by norm_num,
      (pipeline_failure_behaviour 100 100 "boom"
        (Except.error "boom")).1 (by norm_num)⟩,
    by norm_num, by norm_num,
      (pipeline_failure_behaviour 640 480 "boom"
        (Except.error "boom")).2 (by norm_num) (by norm_num)⟩

/-- C5 counterexample.  With one loaded model whose backbone is not
among the extracted features, ensemble prediction has no usable
result; `predict` then fails the request directly — the only strategy
attempted is `"ensemble"`, no single-model selection is tried before
the failure, contradicting the claimed fallback. -/
theorem empty_ensemble_no_fallback_counterexample :
    predict [⟨"mobilenetv3_poly", "mobilenetv3",
        Except.ok ⟨"Organik", 1, [("Organik", 1)], "mobilenetv3_poly"⟩⟩]
        ["resnet50"] none true
      = (Except.error
          "SVM prediction failed: No models available for ensemble prediction",
         ["ensemble"]) ∧
    "single" ∉ (predict [⟨"mobilenetv3_poly", "mobilenetv3",
        Except.ok ⟨"Organik", 1, [("Organik", 1)], "mobilenetv3_poly"⟩⟩]
        ["resnet50"] none true).2 ∧
    "best" ∉ (predict [⟨"mobilenetv3_poly", "mobilenetv3",
        Except.ok ⟨"Organik", 1, [("Organik", 1)], "mobilenetv3_poly"⟩⟩]
        ["resnet50"] none true).2 := by
  refine ⟨?_, ?_, ?_⟩ <;>
    simp [predict, predictEnsemble, ensembleIndividual, predictSingleModel]

/-- C5 (amended).  Whenever ensemble prediction is requested and no
classifier produces a usable result, `predict` raises the
distinguishable error `"SVM prediction failed: No models available for
ensemble prediction"` — never a silent `ok` with a default category or
zero confidence — but no fallback to single-model selection occurs:
the only attempted strategy is `"ensemble"` and the request fails
directly. -/
theorem empty_ensemble_error_no_fallback (models : List ModelEntry)
    (feats : List String) (modelName : Option String)
    (hempty : ensembleIndividual models feats = []) :
    predict models feats modelName true
      = (Except.error
          "SVM prediction failed: No models available for ensemble prediction",
         ["ensemble"]) ∧
    (∀ r : PredictResult,
      (predict models feats modelName true).1 ≠ Except.ok r) ∧
    "single" ∉ (predict models feats modelName true).2 ∧
    "best" ∉ (predict models feats modelName true).2 := by
  have hpe : predictEnsemble models feats
      = Except.error "No models available for ensemble prediction" := by
    simp [predictEnsemble, hempty]
  refine ⟨?_, ?_, ?_, ?_⟩ <;> simp [predict, hpe]

/-- Witness for `empty_ensemble_error_no_fallback` with no loaded
models at all. -/
theorem empty_ensemble_error_no_fallback_witness :
    ensembleIndividual [] ["mobilenetv3"] = [] ∧
    predict [] ["mobilenetv3"] none true
      = (Except.error
          "SVM prediction failed: No models available for ensemble prediction",
         ["ensemble"]) :=
  ⟨rfl, (empty_ensemble_error_no_fallback [] ["mobilenetv3"] none rfl).1⟩

/-- C7 counterexample.  In `SVMClassifier._predict_single_model` the
no-probability fallback is NOT a one-hot summing to 1: for prediction
`"Organik"` the reported confidence is `0.5` (not `1.0`), the other
two categories get probability `1/3` each (not `0.0`), and the
per-category map sums to `5/3` (not `1`). -/
theorem one_hot_fallback_counterexample :
    (srcNoProbFallback "Organik").1 = 1/2 ∧ ((1 : ℚ)/2 ≠ 1) ∧
    (srcNoProbFallback "Organik").2
      = [("Organik", 1), ("Anorganik", 1/3), ("Lainnya", 1/3)] ∧
    ((1 : ℚ)/3 ≠ 0) ∧
    (((srcNoProbFallback "Organik").2.map Prod.snd).sum = 5/3) ∧
    ((5 : ℚ)/3 ≠ 1) := by
  refine ⟨rfl, by norm_num, ?_, by norm_num, ?_, by norm_num⟩
  · simp [srcNoProbFallback, CATEGORIES]
  · simp [srcNoProbFallback, CATEGORIES]
    norm_num

/-- C7 (amended).  The degenerate one-hot fallback holds for the app's
`WasteClassifier.classify`: the predicted class gets probability
exactly `1.0` (which is also the returned confidence), every other
class `0.0`, and the distribution sums to `1`.  The src
`SVMClassifier._predict_single_model` fallback instead reports
confidence `0.5` with a per-category map giving the predicted class
`1.0` and each other class `1/3`, summing to `5/3`. -/
theorem no_probability_fallbacks (pred : Fin 3) (cat : String)
    (hcat : cat ∈ CATEGORIES) :
    ((appNoProbResult pred).2.1 = 1 ∧
      (appOneHot pred).getD pred 0 = 1 ∧
      (∀ j : Fin 3, j ≠ pred → (appOneHot pred).getD j 0 = 0) ∧
      (appOneHot pred).sum = 1) ∧
    ((srcNoProbFallback cat).1 = 1/2 ∧
      ((srcNoProbFallback cat).2.map Prod.snd).sum = 5/3) := by
  constructor
  · fin_cases pred <;>
      refine ⟨rfl, rfl, ?_, by simp [appOneHot]⟩ <;>
      (intro j hj; fin_cases j) <;> simp_all [appOneHot]
  · have : cat = "Organik" ∨ cat = "Anorganik" ∨ cat = "Lainnya" := by
      simpa [CATEGORIES] using hcat
    rcases this with rfl | rfl | rfl <;>
      refine ⟨rfl, ?_⟩ <;>
      · simp [srcNoProbFallback, CATEGORIES]
        norm_num

/-- Witness for `no_probability_fallbacks` at the predicted class
`Organik` (index 0). -/
theorem no_probability_fallbacks_witness :
    "Organik" ∈ CATEGORIES ∧
    (appNoProbResult 0).2.1 = 1 ∧
    (srcNoProbFallback "Organik").1 = 1/2 := by
  have h := no_probability_fallbacks 0 "Organik" (by simp [CATEGORIES])
  exact ⟨by simp [CATEGORIES], h.1.1, h.2.1⟩

/-! ## Feature-extraction failure (claim C8) -/
/-- C8 counterexample.  When the body of `FeatureExtractor.extract`
raises, the function does not signal anything: the except-branch
returns `np.zeros(self.feature_dim)` — the zero vector of length 960 —
and the caller cannot tell it from a real feature vector. -/
theorem extraction_failure_returns_zero_vector :
    extract (Except.error "model forward pass failed")
      = List.replicate featureDim 0 := rfl

/-- C8 (amended).  On every extraction failure the app's
`FeatureExtractor.extract` catches the exception and silently returns
the zero vector of length `feature_dim = 960` — it never raises — so
the orchestrator proceeds to classify the zero vector instead of
abandoning the detection.  (The src `CNNFeatureExtractor
.extract_features`, by contrast, re-raises a ValueError.) -/
theorem extract_silently_returns_zeros (e : String) :
    extract (Except.error e) = List.replicate featureDim 0 ∧
    (extract (Except.error e)).length = 960 ∧
    ∀ x ∈ extract (Except.error e), x = 0 := by
  refine ⟨rfl, ?_, ?_⟩
  · show (List.replicate featureDim (0 : ℚ)).length = 960
    rw [List.length_replicate]
    rfl
  · intro x hx
    simp only [extract] at hx
    exact List.eq_of_mem_replicate hx

end JakOlah
